import Mathlib

/-!
Verification of the Airbnb Rio de Janeiro price-analysis pipeline
(`airbnb_prices_analysis.py`).

The script loads a spreadsheet into a pandas DataFrame `ad`, drops seven
identifier columns, draws a box plot of `minimum_nights`, removes the rows
with `minimum_nights > 30`, draws a box plot of `price`, removes the rows
with `price > 3000`, drops the column `reviews_per_month`, and then computes
group-by means, a top-10-by-mean-price bar chart, a folium map with one
marker per neighbourhood, and a bottom-5-by-mean-availability ranking.

The DataFrame is modelled shallowly: a table is an ordered list of column
names together with rows of cells aligned with the column list; a cell is a
rational number, a string, or the missing value NaN.
-/

/-- A cell of the data table: a numeric value, a string value, or a missing
value (pandas `NaN`). -/
inductive Value where
  | num (q : ℚ)
  | str (s : String)
  | na
deriving DecidableEq

/-- An in-memory DataFrame: ordered column names plus rows, each row a list
of cells aligned positionally with the column list. -/
structure Table where
  cols : List String
  rows : List (List Value)
deriving DecidableEq

/-- Cell lookup by column name: the cell aligned with the first occurrence of
the column label, `.na` when the column is absent or the row is too short. -/
def getCell : List String → List Value → String → Value
  | [], _, _ => .na
  | _ :: _, [], _ => .na
  | c :: cs, v :: vs, d => if c = d then v else getCell cs vs d

/-- The column labels kept after dropping the labels in `bad`. -/
def keptCols (bad cols : List String) : List String :=
  cols.filter (fun c => !bad.contains c)

/-- Projection of one row matching `keptCols bad cols`: the cells aligned
with a column label in `bad` are removed. -/
def removeCells : List String → List String → List Value → List Value
  | _, [], _ => []
  | _, _ :: _, [] => []
  | bad, c :: cs, v :: vs =>
      if bad.contains c then removeCells bad cs vs else v :: removeCells bad cs vs

/-- `DataFrame.drop(columns=bad)`: removes the listed columns from the table;
fails (pandas raises `KeyError`) when one of the labels is not a column of
the table. -/
def dropColumns (bad : List String) (t : Table) : Option Table :=
  if bad.all (fun c => t.cols.contains c) then
    some ⟨keptCols bad t.cols, t.rows.map (removeCells bad t.cols)⟩
  else none

/-- `ad.drop(ad[pred].index, axis=0)`: removes the rows on which the boolean
predicate holds, keeping the column list. -/
def dropRowsWhere (p : List Value → Bool) (t : Table) : Table :=
  ⟨t.cols, t.rows.filter (fun r => !p r)⟩

/-- pandas elementwise comparison `cell > bound`: true only on a numeric cell
strictly exceeding the bound (a `NaN > bound` comparison is false, so such a
row is never selected for dropping). -/
def valGt (v : Value) (bound : ℚ) : Bool :=
  match v with
  | .num q => decide (bound < q)
  | _ => false

/-- The identifier / free-text columns dropped by the first cleaning step:
`ad.drop(columns=['name', 'host_name', 'id', 'host_id', 'neighbourhood_group',
'last_review', 'license'], inplace=True)`. -/
def identCols : List String :=
  ["name", "host_name", "id", "host_id", "neighbourhood_group", "last_review", "license"]

/-- `ad.drop(ad[ad.minimum_nights > 30].index, axis=0, inplace=True)`. -/
def minNightsFilter (t : Table) : Table :=
  dropRowsWhere (fun r => valGt (getCell t.cols r "minimum_nights") 30) t

/-- `ad.drop(ad[ad.price > 3000].index, axis=0, inplace=True)`. -/
def priceFilter (t : Table) : Table :=
  dropRowsWhere (fun r => valGt (getCell t.cols r "price") 3000) t

/-- The full cleaning stage, in script order: drop the identifier columns,
remove the rows with `minimum_nights > 30`, remove the rows with
`price > 3000`, drop `reviews_per_month`. -/
def cleanTable (t : Table) : Option Table :=
  match dropColumns identCols t with
  | none => none
  | some t1 => dropColumns ["reviews_per_month"] (priceFilter (minNightsFilter t1))

/-- The rendering steps of the script, in source order, each paired with the
state of the table `ad` at the moment it is rendered.  The box plot of
`minimum_nights` is drawn after the identifier-column drop and before the
`minimum_nights` row filter; the box plot of `price` is drawn after the
`minimum_nights` filter and before the `price` filter; every later rendering
uses the fully cleaned table. -/
def pipelineEvents (t0 : Table) : Option (List (String × Table)) :=
  match dropColumns identCols t0 with
  | none => none
  | some t1 =>
    let t2 := minNightsFilter t1
    let t3 := priceFilter t2
    match dropColumns ["reviews_per_month"] t3 with
    | none => none
    | some t4 =>
      some [("box_minimum_nights", t1), ("box_price", t2),
            ("scatter", t4), ("scatter_price", t4), ("bar_top10", t4),
            ("map_markers", t4), ("bottom5", t4)]

/-- Whether some cell of the table, addressed by a current column label, is
the missing value (`ad.isnull().sum()` reports a nonzero count). -/
def hasMissing (t : Table) : Bool :=
  t.rows.any (fun r => t.cols.any (fun c => getCell t.cols r c == Value.na))

/-- Lexicographic comparison of character lists by code point. -/
def strLeAux : List Char → List Char → Bool
  | [], _ => true
  | _ :: _, [] => false
  | a :: as, b :: bs =>
      if a.val < b.val then true
      else if b.val < a.val then false
      else strLeAux as bs

/-- Lexicographic string order by code point, the order pandas uses for the
group keys of `groupby('neighbourhood', sort=True)` (the default). -/
def strLe (a b : String) : Bool :=
  strLeAux a.data b.data

/-- `strLe` as a relation. -/
def strLeP (a b : String) : Prop :=
  strLe a b = true

instance : DecidableRel strLeP :=
  fun a b => inferInstanceAs (Decidable (strLe a b = true))

/-- The string values occurring in the `neighbourhood` column, in first
occurrence order, without duplicates (pandas `groupby` drops `NaN` keys). -/
def neighbourhoodsRaw (t : Table) : List String :=
  (t.rows.filterMap (fun r =>
    match getCell t.cols r "neighbourhood" with
    | .str s => some s
    | _ => none)).dedup

/-- The distinct group keys of `ad.groupby('neighbourhood')`, sorted
ascending as pandas does by default. -/
def sortedNeighbourhoods (t : Table) : List String :=
  List.insertionSort strLeP (neighbourhoodsRaw t)

/-- The numeric cells of column `col` on the rows whose `neighbourhood` is
`nb`; pandas `mean()` skips missing values. -/
def groupVals (t : Table) (col nb : String) : List ℚ :=
  t.rows.filterMap (fun r =>
    if getCell t.cols r "neighbourhood" = .str nb then
      match getCell t.cols r col with
      | .num q => some q
      | _ => none
    else none)

/-- The group mean `ad.groupby('neighbourhood')[col].mean()` at key `nb`.
Division by zero yields the junk value `0` where pandas would yield `NaN`
(this arises only for a group with no numeric cell in `col`). -/
def groupMean (t : Table) (col nb : String) : ℚ :=
  (groupVals t col nb).sum / (groupVals t col nb).length

/-- `neighborhood_mean_value = ad.groupby('neighbourhood')['price'].mean().reset_index()`:
one (key, mean price) pair per distinct neighbourhood, keys ascending. -/
def neighborhood_mean_value (t : Table) : List (String × ℚ) :=
  (sortedNeighbourhoods t).map (fun nb => (nb, groupMean t "price" nb))

/-- Descending-by-value order on (key, value) pairs. -/
def descVal (a b : String × ℚ) : Prop :=
  b.2 ≤ a.2

instance : DecidableRel descVal :=
  fun a b => inferInstanceAs (Decidable (b.2 ≤ a.2))

instance : IsTotal (String × ℚ) descVal :=
  ⟨fun a b => le_total b.2 a.2⟩

instance : IsTrans (String × ℚ) descVal :=
  ⟨fun _ _ _ h1 h2 => le_trans h2 h1⟩

/-- Ascending-by-value order on (key, value) pairs. -/
def ascVal (a b : String × ℚ) : Prop :=
  a.2 ≤ b.2

instance : DecidableRel ascVal :=
  fun a b => inferInstanceAs (Decidable (a.2 ≤ b.2))

instance : IsTotal (String × ℚ) ascVal :=
  ⟨fun a b => le_total a.2 b.2⟩

instance : IsTrans (String × ℚ) ascVal :=
  ⟨fun _ _ _ h1 h2 => le_trans h1 h2⟩

/-- `DataFrame.nlargest(n, col)`: the first `n` entries of the stable
descending sort by value. -/
def nlargest (n : ℕ) (l : List (String × ℚ)) : List (String × ℚ) :=
  (List.insertionSort descVal l).take n

/-- `Series.nsmallest(n)`: the first `n` entries of the stable ascending sort
by value. -/
def nsmallest (n : ℕ) (l : List (String × ℚ)) : List (String × ℚ) :=
  (List.insertionSort ascVal l).take n

/-- `top_10_neighborhood = neighborhood_mean_value.nlargest(10, 'price')`. -/
def top_10_neighborhood (t : Table) : List (String × ℚ) :=
  nlargest 10 (neighborhood_mean_value t)

/-- `mean_review_per_neighborhood = ad.groupby('neighbourhood')['availability_365'].mean()`. -/
def mean_review_per_neighborhood (t : Table) : List (String × ℚ) :=
  (sortedNeighbourhoods t).map (fun nb => (nb, groupMean t "availability_365" nb))

/-- `top_5_neighborhood = mean_review_per_neighborhood.nsmallest(5)`. -/
def top_5_neighborhood (t : Table) : List (String × ℚ) :=
  nsmallest 5 (mean_review_per_neighborhood t)

/-- `ad[ad['neighbourhood'] == nb].iloc[0]`, the representative listing used
to place a marker: the first row of the table, in table order, whose
`neighbourhood` cell equals `nb`; `none` when the selection is empty (where
pandas `iloc[0]` would raise `IndexError`). -/
def firstMatchRow (t : Table) (nb : String) : Option (List Value) :=
  (t.rows.filter (fun r => getCell t.cols r "neighbourhood" == Value.str nb)).head?

/-- Fixed two-decimal rendering of a rational, the model of the Python
format `f"{preço_medio:.2f}"` (floating-point rounding of the source is
approximated by rational rounding). -/
def fmt2 (q : ℚ) : String :=
  let c : ℤ := round (q * 100)
  let sign := if c < 0 then "-" else ""
  let a := c.natAbs
  let frac := a % 100
  sign ++ toString (a / 100) ++ "." ++
    (if frac < 10 then "0" ++ toString frac else toString frac)

/-- One folium marker: position, popup text and icon color. -/
structure Marker where
  lat : Value
  lon : Value
  popup : String
  color : String
deriving DecidableEq

/-- The folium map built by the script: fixed center, fixed zoom level, and
the list of markers added to it, in insertion order. -/
structure FoliumMap where
  center : ℚ × ℚ
  zoomStart : ℕ
  markers : List Marker
deriving DecidableEq

/-- One iteration of the marker loop: the marker for neighbourhood `nb` with
mean price `mp`, placed at the first matching listing, red when `nb` is among
the top-10 keys and blue otherwise, popup text with the name and the mean
price at two decimals. -/
def markerFor (t : Table) (topKeys : List String) (nb : String) (mp : ℚ) : Option Marker :=
  match firstMatchRow t nb with
  | none => none
  | some r =>
      some ⟨getCell t.cols r "latitude", getCell t.cols r "longitude",
            "Neighbourhood: " ++ nb ++ "<br>Average price: R$ " ++ fmt2 mp,
            if topKeys.contains nb then "red" else "blue"⟩

/-- The marker loop `for index, row in neighborhood_mean_value.iterrows()`,
accumulating one marker per (key, mean) pair. -/
def buildMarkers (t : Table) (topKeys : List String) : List (String × ℚ) → Option (List Marker)
  | [] => some []
  | (nb, mp) :: rest =>
      match markerFor t topKeys nb mp with
      | none => none
      | some m =>
          match buildMarkers t topKeys rest with
          | none => none
          | some ms => some (m :: ms)

/-- `rio_map = folium.Map(location=[-22.9068, -43.1729], zoom_start=12)`
followed by the marker loop over `neighborhood_mean_value`. -/
def rio_map (t : Table) : Option FoliumMap :=
  match buildMarkers t ((top_10_neighborhood t).map Prod.fst) (neighborhood_mean_value t) with
  | none => none
  | some ms => some ⟨(-22.9068, -43.1729), 12, ms⟩

/-- The source spreadsheet schema (Airbnb Inside-style export). -/
def cols17 : List String :=
  ["id", "name", "host_id", "host_name", "neighbourhood_group", "neighbourhood",
   "latitude", "longitude", "room_type", "price", "minimum_nights",
   "number_of_reviews", "last_review", "reviews_per_month",
   "calculated_host_listings_count", "availability_365", "license"]

/-- A sample input row aligned with `cols17`; `neighbourhood_group`,
`reviews_per_month` and `license` carry missing values, as in the real
export. -/
def mkRow (nb : String) (lat lon price minN avail : ℚ) : List Value :=
  [.num 1, .str "Listing", .num 2, .str "Host", .na, .str nb, .num lat, .num lon,
   .str "Entire home/apt", .num price, .num minN, .num 7, .str "2023-01-01", .na,
   .num 1, .num avail, .na]

/-- A sample loaded table: two listings in neighbourhood A, one boundary
listing in B with `minimum_nights = 30` and `price = 3000`, and one outlier
listing in C with `minimum_nights = 31`. -/
def exT : Table :=
  ⟨cols17, [mkRow "A" 10 20 100 3 300, mkRow "A" 10 21 200 2 100,
            mkRow "B" 30 40 3000 30 50, mkRow "C" 50 60 50 31 10]⟩

/-- The columns of `exT` after the identifier-column drop. -/
def cols10 : List String :=
  ["neighbourhood", "latitude", "longitude", "room_type", "price", "minimum_nights",
   "number_of_reviews", "reviews_per_month", "calculated_host_listings_count",
   "availability_365"]

/-- A row of `exT` after the identifier-column drop. -/
def midRow (nb : String) (lat lon price minN avail : ℚ) : List Value :=
  [.str nb, .num lat, .num lon, .str "Entire home/apt", .num price, .num minN,
   .num 7, .na, .num 1, .num avail]

/-- `exT` after the identifier-column drop, before any row filter. -/
def exT1 : Table :=
  ⟨cols10, [midRow "A" 10 20 100 3 300, midRow "A" 10 21 200 2 100,
            midRow "B" 30 40 3000 30 50, midRow "C" 50 60 50 31 10]⟩

/-- `exT1` after the `minimum_nights` filter (the C listing is gone), before
the `price` filter. -/
def exT2 : Table :=
  ⟨cols10, [midRow "A" 10 20 100 3 300, midRow "A" 10 21 200 2 100,
            midRow "B" 30 40 3000 30 50]⟩

/-- The columns surviving the whole cleaning stage. -/
def cols9 : List String :=
  ["neighbourhood", "latitude", "longitude", "room_type", "price", "minimum_nights",
   "number_of_reviews", "calculated_host_listings_count", "availability_365"]

/-- A fully cleaned row. -/
def outRow (nb : String) (lat lon price minN avail : ℚ) : List Value :=
  [.str nb, .num lat, .num lon, .str "Entire home/apt", .num price, .num minN,
   .num 7, .num 1, .num avail]

/-- The cleaned form of `exT`. -/
def exCleanT : Table :=
  ⟨cols9, [outRow "A" 10 20 100 3 300, outRow "A" 10 21 200 2 100,
           outRow "B" 30 40 3000 30 50]⟩

/-- An input row whose `number_of_reviews` cell is missing: the missing value
sits in a column the cleaning stage keeps. -/
def badRow : List Value :=
  [.num 1, .str "Listing", .num 2, .str "Host", .na, .str "A", .num 10, .num 20,
   .str "Entire home/apt", .num 100, .num 3, .na, .str "2023-01-01", .na,
   .num 1, .num 300, .na]

/-- A loadable table containing `badRow`. -/
def exBad : Table := ⟨cols17, [badRow]⟩

/-- The cleaned form of `exBad`: the missing `number_of_reviews` cell is
still there. -/
def exBadC : Table :=
  ⟨cols9, [[.str "A", .num 10, .num 20, .str "Entire home/apt", .num 100, .num 3,
            .na, .num 1, .num 300]]⟩

/-- A one-listing cleaned table used to instantiate the map theorems. -/
def exW : Table := ⟨cols9, [outRow "A" 10 20 100 3 300]⟩

/-- The folium map the script builds over `exW`: one red marker (its only
neighbourhood is trivially in the top 10) at the listing's coordinates. -/
def exWMap : FoliumMap :=
  ⟨(-22.9068, -43.1729), 12,
   [⟨Value.num 10, Value.num 20,
     "Neighbourhood: " ++ "A" ++ "<br>Average price: R$ " ++
       fmt2 (groupMean exW "price" "A"),
     "red"⟩]⟩

/-- The two-neighbourhood scenario table: A has prices 100 and 200, B has
price 300. -/
def scenT : Table :=
  ⟨["neighbourhood", "price"],
   [[.str "A", .num 100], [.str "A", .num 200], [.str "B", .num 300]]⟩


/-- The list of rendering events the script produces on `exT`. -/
def exEvs : List (String × Table) :=
  [("box_minimum_nights", exT1), ("box_price", exT2), ("scatter", exCleanT),
   ("scatter_price", exCleanT), ("bar_top10", exCleanT), ("map_markers", exCleanT),
   ("bottom5", exCleanT)]


theorem contains_true_iff {l : List String} {c : String} :
    l.contains c = true ↔ c ∈ l :=
  List.elem_iff

theorem contains_false_iff {l : List String} {c : String} :
    l.contains c = false ↔ c ∉ l := by
  constructor
  · intro h hc
    rw [contains_true_iff.mpr hc] at h
    cases h
  · intro h
    cases hb : l.contains c
    · rfl
    · exact absurd (contains_true_iff.mp hb) h

theorem getCell_nil_row (cols : List String) (c : String) :
    getCell cols [] c = Value.na := by
  cases cols <;> rfl

theorem getCell_removeCells {bad : List String} (cols : List String) (row : List Value)
    {c : String} (hc : bad.contains c = false) :
    getCell (keptCols bad cols) (removeCells bad cols row) c = getCell cols row c := by
  induction cols generalizing row with
  | nil => rfl
  | cons c0 cs ih =>
    cases row with
    | nil =>
      show getCell (keptCols bad (c0 :: cs)) [] c = getCell (c0 :: cs) [] c
      rw [getCell_nil_row, getCell_nil_row]
    | cons v vs =>
      by_cases hb : bad.contains c0
      · have hne : ¬ c0 = c := by
          intro he
          rw [he, hc] at hb
          cases hb
        simp only [keptCols, List.filter_cons, hb, Bool.not_true, removeCells, if_pos hb,
          reduceIte, getCell, if_neg hne]
        exact ih vs
      · have hb' : bad.contains c0 = false := by
          cases hbv : bad.contains c0
          · rfl
          · exact absurd hbv hb
        by_cases he : c0 = c
        · simp only [keptCols, List.filter_cons, hb', Bool.not_false, if_pos, removeCells,
            reduceIte, getCell, if_pos he]
        · simp only [keptCols, List.filter_cons, hb', Bool.not_false, if_pos, removeCells,
            reduceIte, getCell, if_neg he]
          exact ih vs

theorem mem_keptCols {bad cols : List String} {c : String} :
    c ∈ keptCols bad cols ↔ c ∈ cols ∧ bad.contains c = false := by
  simp only [keptCols, List.mem_filter, Bool.not_eq_true']

theorem dropColumns_some {bad : List String} {t u : Table} (h : dropColumns bad t = some u) :
    u.cols = keptCols bad t.cols ∧ u.rows = t.rows.map (removeCells bad t.cols) := by
  unfold dropColumns at h
  split at h
  · cases h
    exact ⟨rfl, rfl⟩
  · cases h

theorem dropColumns_none_of_absent {bad : List String} {t : Table} {c : String}
    (hc : c ∈ bad) (hm : c ∉ t.cols) : dropColumns bad t = none := by
  unfold dropColumns
  rw [if_neg]
  intro hall
  exact hm (contains_true_iff.mp (List.all_eq_true.mp hall c hc))

theorem cleanTable_eq {t u : Table} (h : cleanTable t = some u) :
    ∃ t1, dropColumns identCols t = some t1 ∧
      dropColumns ["reviews_per_month"] (priceFilter (minNightsFilter t1)) = some u := by
  unfold cleanTable at h
  cases hd : dropColumns identCols t with
  | none => rw [hd] at h; cases h
  | some t1 => rw [hd] at h; exact ⟨t1, rfl, h⟩

theorem cleanTable_trace {t u : Table} (h : cleanTable t = some u) :
    ∃ t1, dropColumns identCols t = some t1 ∧
      u.cols = keptCols ["reviews_per_month"] t1.cols ∧
      u.rows = ((t1.rows.filter (fun r => !valGt (getCell t1.cols r "minimum_nights") 30)).filter
          (fun r => !valGt (getCell t1.cols r "price") 3000)).map
          (removeCells ["reviews_per_month"] t1.cols) := by
  obtain ⟨t1, h1, h2⟩ := cleanTable_eq h
  obtain ⟨hc, hr⟩ := dropColumns_some h2
  exact ⟨t1, h1, hc, hr⟩

theorem cleanTable_valGt_false {t u : Table} (h : cleanTable t = some u) :
    ∀ r ∈ u.rows, valGt (getCell u.cols r "minimum_nights") 30 = false ∧
      valGt (getCell u.cols r "price") 3000 = false := by
  obtain ⟨t1, _, hc, hr⟩ := cleanTable_trace h
  intro r hrmem
  rw [hr] at hrmem
  obtain ⟨r2, hr2, rfl⟩ := List.mem_map.mp hrmem
  obtain ⟨hr2b, hp2⟩ := List.mem_filter.mp hr2
  obtain ⟨_, hp1⟩ := List.mem_filter.mp hr2b
  rw [hc, getCell_removeCells t1.cols r2 (by decide), getCell_removeCells t1.cols r2 (by decide)]
  exact ⟨by simpa using hp1, by simpa using hp2⟩

theorem cleanTable_cols_char {t u : Table} (h : cleanTable t = some u) :
    ∀ c : String, c ∈ u.cols ↔ c ∈ t.cols ∧ identCols.contains c = false ∧
      (["reviews_per_month"] : List String).contains c = false := by
  obtain ⟨t1, h1, hc, _⟩ := cleanTable_trace h
  obtain ⟨hc1, _⟩ := dropColumns_some h1
  intro c
  rw [hc, mem_keptCols, hc1, mem_keptCols]
  constructor
  · rintro ⟨⟨hm, hi⟩, hrv⟩
    exact ⟨hm, hi, hrv⟩
  · rintro ⟨hm, hi, hrv⟩
    exact ⟨⟨hm, hi⟩, hrv⟩

theorem cleanTable_row_origin {t u : Table} (h : cleanTable t = some u) :
    ∀ r2 ∈ u.rows, ∃ r ∈ t.rows, ∀ c : String, identCols.contains c = false →
      (["reviews_per_month"] : List String).contains c = false →
      getCell u.cols r2 c = getCell t.cols r c := by
  obtain ⟨t1, h1, hc, hr⟩ := cleanTable_trace h
  obtain ⟨hc1, hr1⟩ := dropColumns_some h1
  intro r2 hr2mem
  rw [hr] at hr2mem
  obtain ⟨rm, hrm, rfl⟩ := List.mem_map.mp hr2mem
  obtain ⟨hrmb, _⟩ := List.mem_filter.mp hrm
  obtain ⟨hrmc, _⟩ := List.mem_filter.mp hrmb
  rw [hr1] at hrmc
  obtain ⟨r0, hr0, rfl⟩ := List.mem_map.mp hrmc
  refine ⟨r0, hr0, ?_⟩
  intro c hci hcr
  rw [hc, getCell_removeCells t1.cols _ hcr, hc1, getCell_removeCells t.cols r0 hci]

/-- C1: the cleaner removes exactly the rows exceeding the numeric thresholds.
Every retained row has `minimum_nights ≤ 30` and `price ≤ 3000` whenever those
cells are numeric; in particular no retained row has `minimum_nights = 31` or
`price = 3001`; and an input row with `minimum_nights = 30` and `price = 3000`
is retained. -/
theorem cleaner_removes_exactly_threshold_rows (t u : Table) (h : cleanTable t = some u) :
    (∀ r ∈ u.rows, ∀ q : ℚ, getCell u.cols r "minimum_nights" = .num q → q ≤ 30) ∧
    (∀ r ∈ u.rows, ∀ q : ℚ, getCell u.cols r "price" = .num q → q ≤ 3000) ∧
    (∀ r ∈ u.rows, getCell u.cols r "minimum_nights" ≠ .num 31 ∧
      getCell u.cols r "price" ≠ .num 3001) ∧
    (∀ r ∈ t.rows, getCell t.cols r "minimum_nights" = .num 30 →
      getCell t.cols r "price" = .num 3000 →
      ∃ r2 ∈ u.rows, getCell u.cols r2 "minimum_nights" = .num 30 ∧
        getCell u.cols r2 "price" = .num 3000) := by
  have hmn : ∀ r ∈ u.rows, ∀ q : ℚ, getCell u.cols r "minimum_nights" = .num q → q ≤ 30 := by
    intro r hr q hq
    have := (cleanTable_valGt_false h r hr).1
    rw [hq] at this
    simp only [valGt, decide_eq_false_iff_not, not_lt] at this
    exact this
  have hpr : ∀ r ∈ u.rows, ∀ q : ℚ, getCell u.cols r "price" = .num q → q ≤ 3000 := by
    intro r hr q hq
    have := (cleanTable_valGt_false h r hr).2
    rw [hq] at this
    simp only [valGt, decide_eq_false_iff_not, not_lt] at this
    exact this
  refine ⟨hmn, hpr, ?_, ?_⟩
  · intro r hr
    constructor
    · intro hq
      have := hmn r hr 31 hq
      norm_num at this
    · intro hq
      have := hpr r hr 3001 hq
      norm_num at this
  · intro r hr hq30 hq3000
    obtain ⟨t1, h1, hc, hrw⟩ := cleanTable_trace h
    obtain ⟨hc1, hr1⟩ := dropColumns_some h1
    set r1 : List Value := removeCells identCols t.cols r with hr1def
    have hr1mem : r1 ∈ t1.rows := by
      rw [hr1]
      exact List.mem_map.mpr ⟨r, hr, rfl⟩
    have hg30 : getCell t1.cols r1 "minimum_nights" = .num 30 := by
      rw [hc1, hr1def, getCell_removeCells t.cols r (by decide), hq30]
    have hg3000 : getCell t1.cols r1 "price" = .num 3000 := by
      rw [hc1, hr1def, getCell_removeCells t.cols r (by decide), hq3000]
    have hmem1 : r1 ∈ t1.rows.filter
        (fun r => !valGt (getCell t1.cols r "minimum_nights") 30) := by
      refine List.mem_filter.mpr ⟨hr1mem, ?_⟩
      rw [hg30]
      decide
    have hmem2 : r1 ∈ (t1.rows.filter
        (fun r => !valGt (getCell t1.cols r "minimum_nights") 30)).filter
        (fun r => !valGt (getCell t1.cols r "price") 3000) := by
      refine List.mem_filter.mpr ⟨hmem1, ?_⟩
      rw [hg3000]
      decide
    refine ⟨removeCells ["reviews_per_month"] t1.cols r1, ?_, ?_, ?_⟩
    · rw [hrw]
      exact List.mem_map.mpr ⟨r1, hmem2, rfl⟩
    · rw [hc, getCell_removeCells t1.cols r1 (by decide)]
      exact hg30
    · rw [hc, getCell_removeCells t1.cols r1 (by decide)]
      exact hg3000

theorem cleaner_removes_exactly_threshold_rows_check :
    (∀ r ∈ exCleanT.rows, ∀ q : ℚ, getCell exCleanT.cols r "minimum_nights" = .num q → q ≤ 30) ∧
    (∀ r ∈ exCleanT.rows, ∀ q : ℚ, getCell exCleanT.cols r "price" = .num q → q ≤ 3000) ∧
    (∀ r ∈ exCleanT.rows, getCell exCleanT.cols r "minimum_nights" ≠ .num 31 ∧
      getCell exCleanT.cols r "price" ≠ .num 3001) ∧
    (∀ r ∈ exT.rows, getCell exT.cols r "minimum_nights" = .num 30 →
      getCell exT.cols r "price" = .num 3000 →
      ∃ r2 ∈ exCleanT.rows, getCell exCleanT.cols r2 "minimum_nights" = .num 30 ∧
        getCell exCleanT.cols r2 "price" = .num 3000) :=
  cleaner_removes_exactly_threshold_rows exT exCleanT (by decide)

/-- C10: the cleaner never modifies cell values: every retained row agrees, on
every retained column, with some row of the original table. -/
theorem cleaner_only_removes (t u : Table) (h : cleanTable t = some u) :
    ∀ r2 ∈ u.rows, ∃ r ∈ t.rows, ∀ c ∈ u.cols,
      getCell u.cols r2 c = getCell t.cols r c := by
  intro r2 hr2
  obtain ⟨r, hr, hcell⟩ := cleanTable_row_origin h r2 hr2
  refine ⟨r, hr, ?_⟩
  intro c hcmem
  obtain ⟨_, hci, hcr⟩ := (cleanTable_cols_char h c).mp hcmem
  exact hcell c hci hcr

theorem cleaner_only_removes_check :
    ∃ r ∈ exT.rows, ∀ c ∈ exCleanT.cols,
      getCell exCleanT.cols (outRow "A" 10 20 100 3 300) c = getCell exT.cols r c :=
  cleaner_only_removes exT exCleanT (by decide) (outRow "A" 10 20 100 3 300) (by decide)

/-- C3 counterexample: an input table whose missing value sits in the kept
column `number_of_reviews` still has a missing value after the full cleaning
stage, so the claim quantified over every input table is false. -/
theorem cleaned_table_missing_value_persists :
    cleanTable exBad = some exBadC ∧ hasMissing exBadC = true :=
  ⟨by decide, by decide⟩

/-- C3 amended: when every missing value of the input lies in one of the
dropped columns (the seven identifier columns or `reviews_per_month`), the
cleaned table has no missing value; and no dropped column remains, for every
input the cleaner accepts. -/
theorem cleaned_table_no_missing_of_dropped_only (t u : Table)
    (h : cleanTable t = some u)
    (hm : ∀ r ∈ t.rows, ∀ c ∈ t.cols, getCell t.cols r c = Value.na →
      c ∈ identCols ∨ c = "reviews_per_month") :
    hasMissing u = false ∧ ∀ c ∈ identCols ++ ["reviews_per_month"], c ∉ u.cols := by
  constructor
  · rw [hasMissing, List.any_eq_false]
    intro r hr
    rw [Bool.not_eq_true, List.any_eq_false]
    intro c hcmem
    rw [Bool.not_eq_true, beq_eq_false_iff_ne]
    intro hna
    obtain ⟨hct, hci, hcr⟩ := (cleanTable_cols_char h c).mp hcmem
    obtain ⟨r0, hr0, hcell⟩ := cleanTable_row_origin h r hr
    rw [hcell c hci hcr] at hna
    cases hm r0 hr0 c hct hna with
    | inl hin => exact absurd hin (contains_false_iff.mp hci)
    | inr heq =>
      rw [heq] at hcr
      cases hcr
  · intro c hcdrop hcmem
    obtain ⟨_, hci, hcr⟩ := (cleanTable_cols_char h c).mp hcmem
    cases List.mem_append.mp hcdrop with
    | inl hin => exact absurd hin (contains_false_iff.mp hci)
    | inr hin => exact absurd hin (contains_false_iff.mp hcr)

theorem cleaned_table_no_missing_of_dropped_only_check :
    hasMissing exCleanT = false ∧ ∀ c ∈ identCols ++ ["reviews_per_month"], c ∉ exCleanT.cols :=
  cleaned_table_no_missing_of_dropped_only exT exCleanT (by decide) (by decide)

/-- C4 counterexample: re-running the full cleaner on a table it has already
cleaned does not succeed; the identifier columns are gone, so the first
column drop raises `KeyError` (modelled as `none`). -/
theorem second_cleaner_run_fails :
    cleanTable exT = some exCleanT ∧ cleanTable exCleanT = none :=
  ⟨by decide, by decide⟩

/-- C4 amended: on an already-cleaned table the two row filters are a no-op
(the row count, indeed the whole table, is unchanged), but re-running the
full cleaner, column drops included, fails with column-not-found rather than
succeeding. -/
theorem cleaner_row_filters_idempotent (t u : Table) (h : cleanTable t = some u) :
    priceFilter (minNightsFilter u) = u ∧ cleanTable u = none := by
  constructor
  · have hp := cleanTable_valGt_false h
    obtain ⟨cols, rows⟩ := u
    simp only [minNightsFilter, priceFilter, dropRowsWhere]
    have h1 : rows.filter (fun r => !valGt (getCell cols r "minimum_nights") 30) = rows := by
      rw [List.filter_eq_self]
      intro r hr
      have := (hp r hr).1
      simp [this]
    rw [h1]
    have h2 : rows.filter (fun r => !valGt (getCell cols r "price") 3000) = rows := by
      rw [List.filter_eq_self]
      intro r hr
      have := (hp r hr).2
      simp [this]
    rw [h2]
  · have hname : "name" ∉ u.cols := by
      intro hmem
      obtain ⟨_, hci, _⟩ := (cleanTable_cols_char h "name").mp hmem
      have ht : identCols.contains "name" = true := by decide
      rw [hci] at ht
      cases ht
    have hd : dropColumns identCols u = none :=
      dropColumns_none_of_absent (by decide) hname
    unfold cleanTable
    rw [hd]

theorem cleaner_row_filters_idempotent_check :
    priceFilter (minNightsFilter exCleanT) = exCleanT ∧ cleanTable exCleanT = none :=
  cleaner_row_filters_idempotent exT exCleanT (by decide)

/-- C5 counterexample: the first rendering event of the script, the
`minimum_nights` box plot, is drawn over the table before the row filters
have run; on `exT` that table still contains a row with
`minimum_nights = 31 > 30`, so the box plots are not rendered over the fully
cleaned table. -/
theorem box_plot_before_filters :
    ((pipelineEvents exT).getD []).head? = some ("box_minimum_nights", exT1) ∧
    exT1.rows.any (fun r => valGt (getCell exT1.cols r "minimum_nights") 30) = true :=
  ⟨by decide, by decide⟩

/-- C5 amended: the `minimum_nights` box plot is rendered after the
identifier-column drop but before both row filters; the `price` box plot is
rendered after the `minimum_nights` filter (so every row of its table already
satisfies `minimum_nights ≤ 30`) but before the `price` filter; every
rendering from the scatter plot on uses the fully cleaned table. -/
theorem box_plot_ordering (t0 : Table) (evs : List (String × Table))
    (h : pipelineEvents t0 = some evs) :
    ∃ t1 u, dropColumns identCols t0 = some t1 ∧ cleanTable t0 = some u ∧
      evs.head? = some ("box_minimum_nights", t1) ∧
      evs[1]? = some ("box_price", minNightsFilter t1) ∧
      (∀ r ∈ (minNightsFilter t1).rows,
        valGt (getCell (minNightsFilter t1).cols r "minimum_nights") 30 = false) ∧
      evs.length = 7 ∧
      (∀ e ∈ evs.drop 2, e.2 = u) := by
  unfold pipelineEvents at h
  cases h1 : dropColumns identCols t0 with
  | none => rw [h1] at h; cases h
  | some t1 =>
    rw [h1] at h
    simp only at h
    cases h4 : dropColumns ["reviews_per_month"] (priceFilter (minNightsFilter t1)) with
    | none => rw [h4] at h; cases h
    | some t4 =>
      rw [h4] at h
      cases h
      refine ⟨t1, t4, rfl, ?_, rfl, rfl, ?_, rfl, ?_⟩
      · unfold cleanTable
        rw [h1]
        exact h4
      · intro r hr
        obtain ⟨_, hp⟩ := List.mem_filter.mp hr
        simpa using hp
      · intro e he
        simp only [List.drop, List.mem_cons, List.not_mem_nil, or_false] at he
        rcases he with rfl | rfl | rfl | rfl | rfl <;> rfl

theorem box_plot_ordering_check :
    ∃ t1 u, dropColumns identCols exT = some t1 ∧ cleanTable exT = some u ∧
      exEvs.head? = some ("box_minimum_nights", t1) ∧
      exEvs[1]? = some ("box_price", minNightsFilter t1) ∧
      (∀ r ∈ (minNightsFilter t1).rows,
        valGt (getCell (minNightsFilter t1).cols r "minimum_nights") 30 = false) ∧
      exEvs.length = 7 ∧
      (∀ e ∈ exEvs.drop 2, e.2 = u) :=
  box_plot_ordering exT exEvs (by decide)

/-- C2: the top-10-by-mean-price selection has at most 10 entries; every
entry pairs a neighbourhood occurring in the table with its mean price; and
the entries are ordered descending by mean price (ties in an unspecified
order). -/
theorem top10_selection_shape (t : Table) :
    (top_10_neighborhood t).length ≤ 10 ∧
    (∀ p ∈ top_10_neighborhood t,
      (∃ r ∈ t.rows, getCell t.cols r "neighbourhood" = .str p.1) ∧
      p.2 = groupMean t "price" p.1) ∧
    (top_10_neighborhood t).Pairwise (fun a b => b.2 ≤ a.2) := by
  refine ⟨?_, ?_, ?_⟩
  · rw [top_10_neighborhood, nlargest, List.length_take]
    exact min_le_left _ _
  · intro p hp
    have hp1 : p ∈ List.insertionSort descVal (neighborhood_mean_value t) :=
      List.mem_of_mem_take hp
    have hp2 : p ∈ neighborhood_mean_value t := (List.mem_insertionSort descVal).mp hp1
    obtain ⟨nb, hnb, rfl⟩ := List.mem_map.mp hp2
    have hnb1 : nb ∈ neighbourhoodsRaw t := (List.mem_insertionSort strLeP).mp hnb
    have hnb2 := List.mem_dedup.mp hnb1
    obtain ⟨r, hr, hcell⟩ := List.mem_filterMap.mp hnb2
    refine ⟨⟨r, hr, ?_⟩, rfl⟩
    cases hg : getCell t.cols r "neighbourhood" <;> rw [hg] at hcell <;>
      simp only [Option.some.injEq, reduceCtorEq] at hcell
    rw [hcell]
  · exact List.Pairwise.sublist (List.take_sublist _ _)
      (List.sorted_insertionSort descVal (neighborhood_mean_value t))

theorem top10_selection_shape_check :
    (∃ r ∈ exW.rows, getCell exW.cols r "neighbourhood" =
      .str ("A", groupMean exW "price" "A").1) ∧
    ("A", groupMean exW "price" "A").2 =
      groupMean exW "price" ("A", groupMean exW "price" "A").1 :=
  (top10_selection_shape exW).2.1 ("A", groupMean exW "price" "A")
    (List.mem_singleton.mpr rfl)

/-- C7: the bottom-5-by-mean-availability selection has at most 5 entries;
every entry pairs a neighbourhood occurring in the table with its mean
`availability_365`; and the entries are ordered ascending by mean
availability. -/
theorem bottom5_selection_shape (t : Table) :
    (top_5_neighborhood t).length ≤ 5 ∧
    (∀ p ∈ top_5_neighborhood t,
      (∃ r ∈ t.rows, getCell t.cols r "neighbourhood" = .str p.1) ∧
      p.2 = groupMean t "availability_365" p.1) ∧
    (top_5_neighborhood t).Pairwise (fun a b => a.2 ≤ b.2) := by
  refine ⟨?_, ?_, ?_⟩
  · rw [top_5_neighborhood, nsmallest, List.length_take]
    exact min_le_left _ _
  · intro p hp
    have hp1 : p ∈ List.insertionSort ascVal (mean_review_per_neighborhood t) :=
      List.mem_of_mem_take hp
    have hp2 : p ∈ mean_review_per_neighborhood t := (List.mem_insertionSort ascVal).mp hp1
    obtain ⟨nb, hnb, rfl⟩ := List.mem_map.mp hp2
    have hnb1 : nb ∈ neighbourhoodsRaw t := (List.mem_insertionSort strLeP).mp hnb
    have hnb2 := List.mem_dedup.mp hnb1
    obtain ⟨r, hr, hcell⟩ := List.mem_filterMap.mp hnb2
    refine ⟨⟨r, hr, ?_⟩, rfl⟩
    cases hg : getCell t.cols r "neighbourhood" <;> rw [hg] at hcell <;>
      simp only [Option.some.injEq, reduceCtorEq] at hcell
    rw [hcell]
  · exact List.Pairwise.sublist (List.take_sublist _ _)
      (List.sorted_insertionSort ascVal (mean_review_per_neighborhood t))

theorem bottom5_selection_shape_check :
    (∃ r ∈ exW.rows, getCell exW.cols r "neighbourhood" =
      .str ("A", groupMean exW "availability_365" "A").1) ∧
    ("A", groupMean exW "availability_365" "A").2 =
      groupMean exW "availability_365" ("A", groupMean exW "availability_365" "A").1 :=
  (bottom5_selection_shape exW).2.1 ("A", groupMean exW "availability_365" "A")
    (List.mem_singleton.mpr rfl)

/-- C8: on the two-neighbourhood scenario table, the mean price per
neighbourhood is 150 for A and 300 for B, and the top-1-by-mean-price
selection returns B. -/
theorem scenario_two_neighbourhoods :
    neighborhood_mean_value scenT = [("A", 150), ("B", 300)] ∧
    nlargest 1 (neighborhood_mean_value scenT) = [("B", 300)] := by
  have hgA : groupVals scenT "price" "A" = [100, 200] := by decide
  have hgB : groupVals scenT "price" "B" = [300] := by decide
  have hA : groupMean scenT "price" "A" = 150 := by
    rw [groupMean, hgA]
    norm_num [List.sum_cons, List.sum_nil]
  have hB : groupMean scenT "price" "B" = 300 := by
    rw [groupMean, hgB]
    norm_num [List.sum_cons, List.sum_nil]
  have hs : sortedNeighbourhoods scenT = ["A", "B"] := by decide
  have hm : neighborhood_mean_value scenT = [("A", 150), ("B", 300)] := by
    rw [neighborhood_mean_value, hs]
    simp [hA, hB]
  refine ⟨hm, ?_⟩
  rw [hm]
  decide

theorem markerFor_some {t : Table} {keys : List String} {nb : String} {mp : ℚ} {m : Marker}
    (h : markerFor t keys nb mp = some m) :
    ∃ r, firstMatchRow t nb = some r ∧
      m = ⟨getCell t.cols r "latitude", getCell t.cols r "longitude",
           "Neighbourhood: " ++ nb ++ "<br>Average price: R$ " ++ fmt2 mp,
           if keys.contains nb then "red" else "blue"⟩ := by
  unfold markerFor at h
  cases hf : firstMatchRow t nb with
  | none => rw [hf] at h; cases h
  | some r =>
    rw [hf] at h
    cases h
    exact ⟨r, rfl, rfl⟩

theorem buildMarkers_forall2 {t : Table} {keys : List String} :
    ∀ (l : List (String × ℚ)) (ms : List Marker), buildMarkers t keys l = some ms →
    List.Forall₂ (fun (p : String × ℚ) (mk : Marker) =>
      ∃ r, firstMatchRow t p.1 = some r ∧
        mk = ⟨getCell t.cols r "latitude", getCell t.cols r "longitude",
              "Neighbourhood: " ++ p.1 ++ "<br>Average price: R$ " ++ fmt2 p.2,
              if keys.contains p.1 then "red" else "blue"⟩) l ms := by
  intro l
  induction l with
  | nil =>
    intro ms h
    cases h
    exact List.Forall₂.nil
  | cons p rest ih =>
    obtain ⟨nb, mp⟩ := p
    intro ms h
    unfold buildMarkers at h
    cases hm : markerFor t keys nb mp with
    | none => rw [hm] at h; cases h
    | some m =>
      rw [hm] at h
      cases hb : buildMarkers t keys rest with
      | none => rw [hb] at h; cases h
      | some ms0 =>
        rw [hb] at h
        cases h
        exact List.Forall₂.cons (markerFor_some hm) (ih ms0 hb)

theorem red_iff_contains {l : List String} {c : String} :
    ((if l.contains c then "red" else "blue") = "red") ↔ c ∈ l := by
  by_cases hc : c ∈ l
  · rw [if_pos (contains_true_iff.mpr hc)]
    simp [hc]
  · rw [if_neg]
    · simp [hc]
    · intro hcon
      exact hc (contains_true_iff.mp hcon)

theorem red_or_blue {l : List String} {c : String} :
    (if l.contains c then "red" else "blue") = "red" ∨
    (if l.contains c then "red" else "blue") = "blue" := by
  by_cases hc : l.contains c = true
  · rw [if_pos hc]; exact Or.inl rfl
  · rw [if_neg hc]; exact Or.inr rfl

/-- C6: the rendered map is centred on (-22.9068, -43.1729) at zoom level 12
and carries exactly one marker per distinct neighbourhood of the table, in
correspondence with the per-neighbourhood mean-price list: each marker sits at
the latitude/longitude of the representative (first matching) listing of its
neighbourhood, is red exactly when the neighbourhood is in the top-10 set and
blue otherwise, and its popup text is the neighbourhood name with the mean
price formatted to two decimals. -/
theorem rio_map_spec (t : Table) (m : FoliumMap) (h : rio_map t = some m) :
    m.center = (-22.9068, -43.1729) ∧ m.zoomStart = 12 ∧
    m.markers.length = (sortedNeighbourhoods t).length ∧
    List.Forall₂ (fun (p : String × ℚ) (mk : Marker) =>
      (∃ r, firstMatchRow t p.1 = some r ∧
        mk.lat = getCell t.cols r "latitude" ∧ mk.lon = getCell t.cols r "longitude") ∧
      mk.popup = "Neighbourhood: " ++ p.1 ++ "<br>Average price: R$ " ++ fmt2 p.2 ∧
      (mk.color = "red" ↔ p.1 ∈ (top_10_neighborhood t).map Prod.fst) ∧
      (mk.color = "red" ∨ mk.color = "blue"))
      (neighborhood_mean_value t) m.markers := by
  unfold rio_map at h
  cases hb : buildMarkers t ((top_10_neighborhood t).map Prod.fst)
      (neighborhood_mean_value t) with
  | none => rw [hb] at h; cases h
  | some ms =>
    rw [hb] at h
    cases h
    have hf2 := buildMarkers_forall2 (neighborhood_mean_value t) ms hb
    refine ⟨rfl, rfl, ?_, ?_⟩
    · rw [← hf2.length_eq, neighborhood_mean_value, List.length_map]
    · refine List.Forall₂.imp ?_ hf2
      rintro p mk ⟨r, hr, rfl⟩
      exact ⟨⟨r, hr, rfl, rfl⟩, rfl, red_iff_contains, red_or_blue⟩

theorem rio_map_spec_check :
    exWMap.center = (-22.9068, -43.1729) ∧ exWMap.zoomStart = 12 ∧
    exWMap.markers.length = (sortedNeighbourhoods exW).length ∧
    List.Forall₂ (fun (p : String × ℚ) (mk : Marker) =>
      (∃ r, firstMatchRow exW p.1 = some r ∧
        mk.lat = getCell exW.cols r "latitude" ∧ mk.lon = getCell exW.cols r "longitude") ∧
      mk.popup = "Neighbourhood: " ++ p.1 ++ "<br>Average price: R$ " ++ fmt2 p.2 ∧
      (mk.color = "red" ↔ p.1 ∈ (top_10_neighborhood exW).map Prod.fst) ∧
      (mk.color = "red" ∨ mk.color = "blue"))
      (neighborhood_mean_value exW) exWMap.markers :=
  rio_map_spec exW exWMap rfl

theorem head_filter_spec {α : Type} (p : α → Bool) (l : List α) (x : α)
    (hx : x ∈ l) (hpx : p x = true) :
    ∃ a l1 l2, (l.filter p).head? = some a ∧ l = l1 ++ a :: l2 ∧ p a = true ∧
      ∀ y ∈ l1, p y = false := by
  induction l with
  | nil => cases hx
  | cons b bs ih =>
    cases hb : p b with
    | true =>
      refine ⟨b, [], bs, ?_, rfl, hb, ?_⟩
      · rw [List.filter_cons, if_pos hb]
        rfl
      · intro y hy
        cases hy
    | false =>
      have hx' : x ∈ bs := by
        cases List.mem_cons.mp hx with
        | inl he =>
          rw [← he, hpx] at hb
          cases hb
        | inr hmem => exact hmem
      obtain ⟨a, l1, l2, h1, h2, h3, h4⟩ := ih hx'
      refine ⟨a, b :: l1, l2, ?_, ?_, h3, ?_⟩
      · rw [List.filter_cons, if_neg]
        · exact h1
        · rw [hb]
          intro hcon
          cases hcon
      · rw [List.cons_append, h2]
      · intro y hy
        cases List.mem_cons.mp hy with
        | inl he => rw [he]; exact hb
        | inr hmem => exact h4 y hmem

theorem sortedNeighbourhoods_mem_exists {t : Table} {nb : String}
    (h : nb ∈ sortedNeighbourhoods t) :
    ∃ r ∈ t.rows, getCell t.cols r "neighbourhood" = .str nb := by
  have h1 : nb ∈ neighbourhoodsRaw t := (List.mem_insertionSort strLeP).mp h
  obtain ⟨r, hr, hcell⟩ := List.mem_filterMap.mp (List.mem_dedup.mp h1)
  refine ⟨r, hr, ?_⟩
  cases hg : getCell t.cols r "neighbourhood" <;> rw [hg] at hcell <;>
    simp only [Option.some.injEq, reduceCtorEq] at hcell
  rw [hcell]

theorem buildMarkers_some {t : Table} {keys : List String} :
    ∀ l : List (String × ℚ), (∀ p ∈ l, (firstMatchRow t p.1).isSome = true) →
      (buildMarkers t keys l).isSome = true := by
  intro l
  induction l with
  | nil => intro _; rfl
  | cons p rest ih =>
    intro hl
    obtain ⟨nb, mp⟩ := p
    have h1 : (firstMatchRow t nb).isSome = true := hl (nb, mp) (List.mem_cons_self _ _)
    have h2 : (buildMarkers t keys rest).isSome = true :=
      ih (fun q hq => hl q (List.mem_cons_of_mem _ hq))
    unfold buildMarkers
    cases hf : firstMatchRow t nb with
    | none => rw [hf] at h1; cases h1
    | some r =>
      cases hbm : buildMarkers t keys rest with
      | none => rw [hbm] at h2; cases h2
      | some ms => simp [markerFor, hf, hbm]

/-- C9: for every neighbourhood appearing in the per-neighbourhood
aggregation, the table contains a matching row, so the `iloc[0]`
marker-placement lookup always succeeds; the representative listing is
deterministically the first matching row in table order; and consequently
building the whole map never fails. -/
theorem marker_lookup_safe (t : Table) :
    (∀ nb ∈ sortedNeighbourhoods t, ∃ r l1 l2,
      firstMatchRow t nb = some r ∧ t.rows = l1 ++ r :: l2 ∧
      getCell t.cols r "neighbourhood" = .str nb ∧
      ∀ r2 ∈ l1, getCell t.cols r2 "neighbourhood" ≠ .str nb) ∧
    (rio_map t).isSome = true := by
  have hpart : ∀ nb ∈ sortedNeighbourhoods t, ∃ r l1 l2,
      firstMatchRow t nb = some r ∧ t.rows = l1 ++ r :: l2 ∧
      getCell t.cols r "neighbourhood" = .str nb ∧
      ∀ r2 ∈ l1, getCell t.cols r2 "neighbourhood" ≠ .str nb := by
    intro nb hnb
    obtain ⟨r0, hr0, hcell⟩ := sortedNeighbourhoods_mem_exists hnb
    obtain ⟨a, l1, l2, h1, h2, h3, h4⟩ :=
      head_filter_spec (fun r => getCell t.cols r "neighbourhood" == Value.str nb)
        t.rows r0 hr0 (by rw [beq_iff_eq]; exact hcell)
    refine ⟨a, l1, l2, h1, h2, beq_iff_eq.mp h3, ?_⟩
    intro r2 hr2 hcontra
    have hfalse := h4 r2 hr2
    rw [beq_eq_false_iff_ne] at hfalse
    exact hfalse hcontra
  refine ⟨hpart, ?_⟩
  have hbm : (buildMarkers t ((top_10_neighborhood t).map Prod.fst)
      (neighborhood_mean_value t)).isSome = true := by
    apply buildMarkers_some
    intro p hp
    obtain ⟨nb, hnb, rfl⟩ := List.mem_map.mp hp
    obtain ⟨r, l1, l2, h1, _⟩ := hpart nb hnb
    rw [h1]
    rfl
  unfold rio_map
  cases hb : buildMarkers t ((top_10_neighborhood t).map Prod.fst)
      (neighborhood_mean_value t) with
  | none => rw [hb] at hbm; cases hbm
  | some ms => rfl

theorem marker_lookup_safe_check :
    ∃ r l1 l2, firstMatchRow exW "A" = some r ∧ exW.rows = l1 ++ r :: l2 ∧
      getCell exW.cols r "neighbourhood" = .str "A" ∧
      ∀ r2 ∈ l1, getCell exW.cols r2 "neighbourhood" ≠ .str "A" :=
  (marker_lookup_safe exW).1 "A" (by decide)
